import Mathlib

/-!
Shallow embedding of `src/project_main.py`, a streamlit dashboard computing
analytics over a public-transport usage table.

Modelling conventions:
* A dataframe is a `List Record` in row order; boolean-mask filtering
  (`df[mask]`) is `List.filter`, which preserves row order.
* pandas/numpy floating point arithmetic is modelled over `ℚ`.  The one
  place where IEEE non-finite values matter is division: `x / 0` on numpy
  scalars yields `inf`, `-inf` or `nan` (with a RuntimeWarning), never an
  exception.  The type `Val` makes that explicit: `Val.num q` is a finite
  value, the other constructors are the non-finite floats.
* `groupby(keys)` (default `sort=True`) is: the distinct keys present, in
  sorted key order, each with the aggregate over the rows having that key.
  `sort_values(ascending=False)` uses numpy quicksort, whose order among
  equal sort keys is implementation defined; the embedding uses insertion
  sort, which fixes one concrete order for ties.  No theorem below relies
  on the tie order.
-/

namespace Transport

/-- One row of the raw dataset, with the columns read at
`project_main.py` lines 48-52, 60-96, 146, 177-188 and 253-257. -/
structure Record where
  country : String
  year : Int
  transport_type : String
  annual_usage : ℚ
  customer_satisfaction_score : ℚ
  co2_emissions_kg_per_passenger : ℚ
  urbanization_rate_percent : ℚ
deriving DecidableEq

/-- The sidebar filter parameters (lines 22-45): selected countries,
inclusive year range, selected transport types, minimum satisfaction. -/
structure FilterParams where
  countries : List String
  year_lo : Int
  year_hi : Int
  transport_types : List String
  min_satisfaction : ℚ
deriving DecidableEq

/-- Result of a numpy floating-point computation: a finite value, or one
of the non-finite floats produced by division by zero. -/
inductive Val where
  | num (q : ℚ)
  | posInf
  | negInf
  | nan
deriving DecidableEq

/-- Whether a `Val` is a finite number. -/
def Val.finite : Val → Bool
  | .num _ => true
  | _ => false

/-- numpy scalar division: `b = 0` gives `inf`, `-inf` or `nan` depending
on the sign of `a`; otherwise the exact quotient. -/
def vdiv (a b : ℚ) : Val :=
  if b = 0 then (if 0 < a then .posInf else if a < 0 then .negInf else .nan) else .num (a / b)

/-- Multiplication of a division result by the literal `100` (line 63);
a positive factor preserves each non-finite float. -/
def vmul100 : Val → Val
  | .num q => .num (q * 100)
  | v => v

/-- The code's comparison `v > c` on a possibly non-finite float:
`inf > c` is true, `-inf > c` and `nan > c` are false. -/
def val_gt (v : Val) (c : ℚ) : Bool :=
  match v with
  | .num q => decide (c < q)
  | .posInf => true
  | .negInf => false
  | .nan => false

/-- The code's comparison `v < c` on a possibly non-finite float. -/
def val_lt (v : Val) (c : ℚ) : Bool :=
  match v with
  | .num q => decide (q < c)
  | .posInf => false
  | .negInf => true
  | .nan => false

/-- Arithmetic mean of a list of numbers (pandas `.mean()`); every group
this is applied to below is non-empty. -/
def mean (xs : List ℚ) : ℚ := xs.sum / (xs.length : ℚ)

/-- Round an exact rational to the nearest integer, ties to even
(numpy rounding, used by pandas `.round`). -/
def roundHalfEven (q : ℚ) : ℤ :=
  let n := ⌊q⌋
  let f := q - (n : ℚ)
  if f < 1/2 then n
  else if (1/2 : ℚ) < f then n + 1
  else if n % 2 = 0 then n else n + 1

/-- pandas `.round(2)`: round to 2 decimal places. -/
def round2 (q : ℚ) : ℚ := (roundHalfEven (q * 100) : ℚ) / 100

/-- Lines 48-53: the filter engine.  Four boolean masks
(`isin(countries)`, `between(years[0], years[1])` which is inclusive on
both ends, `isin(transport_types)`, `>= min_satisfaction`) are conjoined
and the masked rows are kept in order. -/
def filtered_df (df : List Record) (p : FilterParams) : List Record :=
  df.filter fun r =>
    decide (r.country ∈ p.countries) &&
    (decide (p.year_lo ≤ r.year) && decide (r.year ≤ p.year_hi)) &&
    decide (r.transport_type ∈ p.transport_types) &&
    decide (p.min_satisfaction ≤ r.customer_satisfaction_score)

/-- The four filter predicates as the specification states them (§4.1). -/
def RowPred (p : FilterParams) (r : Record) : Prop :=
  r.country ∈ p.countries ∧
  (p.year_lo ≤ r.year ∧ r.year ≤ p.year_hi) ∧
  r.transport_type ∈ p.transport_types ∧
  p.min_satisfaction ≤ r.customer_satisfaction_score

instance (p : FilterParams) (r : Record) : Decidable (RowPred p r) := by
  unfold RowPred; infer_instance

/-- Line 60: `total_usage = filtered_df['Annual_Usage'].sum()`. -/
def total_usage (df : List Record) : ℚ := (df.map (·.annual_usage)).sum

/-- Lines 61-63 inner sums: annual usage summed over the rows of a given
year (`filtered_df[filtered_df['Year'] == y]['Annual_Usage'].sum()`). -/
def usage_in_year (df : List Record) (y : Int) : ℚ :=
  total_usage (df.filter fun r => decide (r.year = y))

/-- Lines 61-63: the growth rate.  When the year bounds differ the code
divides by the start-year sum unconditionally; numpy division by zero
gives a non-finite float. -/
def growth_rate (df : List Record) (p : FilterParams) : Val :=
  if p.year_hi = p.year_lo then .num 0
  else vmul100 (vdiv (usage_in_year df p.year_hi - usage_in_year df p.year_lo)
                     (usage_in_year df p.year_lo))

/-- Line 74: mean satisfaction over the filtered rows. -/
def avg_satisfaction (df : List Record) : ℚ :=
  mean (df.map (·.customer_satisfaction_score))

/-- Line 75: maximum satisfaction over the raw, unfiltered dataset. -/
def best_satisfaction (df : List Record) : ℚ :=
  (df.map (·.customer_satisfaction_score)).foldr max 0

/-- Line 80: mean CO2 emissions over the filtered rows. -/
def avg_emissions (df : List Record) : ℚ :=
  mean (df.map (·.co2_emissions_kg_per_passenger))

/-- Line 84: `(avg_satisfaction * total_usage / 1_000_000) / avg_emissions`,
divided by zero when the mean emission is zero. -/
def efficiency_score (df : List Record) : Val :=
  vdiv (avg_satisfaction df * total_usage df / 1000000) (avg_emissions df)

/-- Line 88: number of distinct countries in the filtered rows. -/
def countries_count (df : List Record) : Nat :=
  (df.map (·.country)).dedup.length

/-- Python string comparison: code-point lexicographic order on the
character lists. -/
def charListLe : List Char → List Char → Bool
  | [], _ => true
  | _ :: _, [] => false
  | a :: as, b :: bs =>
    if a.toNat < b.toNat then true
    else if b.toNat < a.toNat then false
    else charListLe as bs

/-- String order used by pandas when sorting group keys. -/
def strLe (a b : String) : Bool := charListLe a.data b.data

/-- Lexicographic order on `(Country, Transport_Type)` group keys. -/
def ctLe (a b : String × String) : Prop :=
  (if a.1 = b.1 then strLe a.2 b.2 else strLe a.1 b.1) = true

instance : DecidableRel ctLe := fun a b => by unfold ctLe; infer_instance

/-- Lexicographic order on `(Year, Transport_Type)` group keys. -/
def ytLe (a b : Int × String) : Prop :=
  (if a.1 = b.1 then strLe a.2 b.2 else decide (a.1 ≤ b.1)) = true

instance : DecidableRel ytLe := fun a b => by unfold ytLe; infer_instance

/-- The `(Country, Transport_Type)` key of a row. -/
def key_ct (r : Record) : String × String := (r.country, r.transport_type)

/-- The distinct `(Country, Transport_Type)` keys of the dataframe in
sorted order — `groupby(['Country', 'Transport_Type'])`, `sort=True`. -/
def group_keys_ct (df : List Record) : List (String × String) :=
  List.insertionSort ctLe (df.map key_ct).dedup

/-- The rows belonging to one `(Country, Transport_Type)` group. -/
def rows_ct (df : List Record) (k : String × String) : List Record :=
  df.filter fun r => decide (key_ct r = k)

/-- Line 146: `groupby(['Year', 'Transport_Type'])['Annual_Usage'].sum()`. -/
def yearly_data (df : List Record) : List (Int × String × ℚ) :=
  (List.insertionSort ytLe (df.map fun r => (r.year, r.transport_type)).dedup).map
    fun k => (k.1, k.2, total_usage (df.filter fun r =>
      decide ((r.year, r.transport_type) = k)))

/-- Lines 178-181: the per-row performance score added to the copied
dataframe: `satisfaction * 20 + (100 - co2) * 0.5` (not clamped). -/
def performance_score_row (r : Record) : ℚ :=
  r.customer_satisfaction_score * 20 + (100 - r.co2_emissions_kg_per_passenger) * (1/2)

/-- One row of the `top_performers` table (lines 183-188). -/
structure PerfRow where
  country : String
  transport_type : String
  performance_score : ℚ
  annual_usage_sum : ℚ
  satisfaction_mean : ℚ
  co2_mean : ℚ
deriving DecidableEq

/-- The aggregate row of one `(Country, Transport_Type)` group in the
`top_performers` table. -/
def perf_row (df : List Record) (k : String × String) : PerfRow :=
  { country := k.1
    transport_type := k.2
    performance_score := mean ((rows_ct df k).map performance_score_row)
    annual_usage_sum := total_usage (rows_ct df k)
    satisfaction_mean := avg_satisfaction (rows_ct df k)
    co2_mean := avg_emissions (rows_ct df k) }

/-- Descending order by performance score, used by
`sort_values('Performance_Score', ascending=False)`.  The source's
quicksort leaves the order of equal scores implementation defined; the
embedding uses insertion sort (one concrete choice). -/
def perfGe (a b : PerfRow) : Prop := b.performance_score ≤ a.performance_score

instance : DecidableRel perfGe := fun a b => by unfold perfGe; infer_instance

/-- Lines 183-188: group the (copied, score-augmented) filtered rows by
`(Country, Transport_Type)`, aggregate, and sort by score descending. -/
def top_performers (df : List Record) : List PerfRow :=
  List.insertionSort perfGe ((group_keys_ct df).map (perf_row df))

/-- Line 242: the transport type of the first ranked row, with the
`"N/A"` sentinel when the ranking is empty. -/
def best_transport (tops : List PerfRow) : String :=
  match tops with
  | [] => "N/A"
  | g :: _ => g.transport_type

/-- The insight categories produced at lines 221-243; `topPerformer`
carries the transport-type name interpolated into the message. -/
inductive Insight where
  | strongGrowth
  | declining
  | highSatisfaction
  | lowSatisfaction
  | ecoFriendly
  | highEmissions
  | topPerformer (transport : String)
deriving DecidableEq

/-- Lines 221-243: rule-based insights.  Growth comparisons go through
`val_gt`/`val_lt` because `growth_rate` may be a non-finite float.  The
`if/elif` pairs mirror the source; the top-performer line is always
appended.  The function is total: no branch can fail. -/
def insights (g : Val) (sat em : ℚ) (tops : List PerfRow) : List Insight :=
  (if val_gt g 10 then [.strongGrowth]
   else if val_lt g (-5) then [.declining] else []) ++
  (if (4 : ℚ) < sat then [.highSatisfaction]
   else if sat < 3 then [.lowSatisfaction] else []) ++
  (if em < 2 then [.ecoFriendly]
   else if (5 : ℚ) < em then [.highEmissions] else []) ++
  [.topPerformer (best_transport tops)]

/-- One row of the `display_df` table (lines 253-265) after renaming: the
five aggregate columns hold the `.round(2)`-rounded statistics, and the
two derived ratio columns are computed from those rounded values (and are
themselves possibly non-finite). -/
structure DisplayRow where
  country : String
  transport_type : String
  Total_Usage : ℚ
  Avg_Annual_Usage : ℚ
  Avg_Satisfaction : ℚ
  Avg_CO2_Emissions : ℚ
  Avg_Urbanization : ℚ
  Usage_per_Urban : Val
  Satisfaction_Efficiency : Val
deriving DecidableEq

/-- Lines 253-265 for one group: aggregate, round to 2 decimals
(line 258: `.round(2)` is applied to the aggregates), then divide the
rounded columns to get the two derived ratios (lines 264-265). -/
def display_row (df : List Record) (k : String × String) : DisplayRow :=
  let g := rows_ct df k
  let tu := round2 (total_usage g)
  let au := round2 (mean (g.map (·.annual_usage)))
  let sat := round2 (avg_satisfaction g)
  let co2 := round2 (avg_emissions g)
  let urb := round2 (mean (g.map (·.urbanization_rate_percent)))
  { country := k.1
    transport_type := k.2
    Total_Usage := tu
    Avg_Annual_Usage := au
    Avg_Satisfaction := sat
    Avg_CO2_Emissions := co2
    Avg_Urbanization := urb
    Usage_per_Urban := vdiv tu urb
    Satisfaction_Efficiency := vdiv sat co2 }

/-- Lines 253-265: the detailed-metrics table, one row per group. -/
def display_df (df : List Record) : List DisplayRow :=
  (group_keys_ct df).map (display_row df)

/-- The ratio of §4.3 as the specification states it: total usage over
the full-precision (unrounded) mean urbanization of the group. -/
def usage_per_urban_spec (df : List Record) (k : String × String) : Val :=
  vdiv (total_usage (rows_ct df k))
       (mean ((rows_ct df k).map (·.urbanization_rate_percent)))

/-- The companion ratio of §4.3 as specified: full-precision mean
satisfaction over full-precision mean emissions of the group. -/
def satisfaction_efficiency_spec (df : List Record) (k : String × String) : Val :=
  vdiv (avg_satisfaction (rows_ct df k)) (avg_emissions (rows_ct df k))

/-! ### Heap model for the Performance Scorer (lines 177-181)

pandas dataframes are heap objects: `filtered_df.copy()` allocates a new
object, and `df['col'] = e` mutates an object in place.  The store is a
list of objects addressed by position; this makes the copy-vs-alias
distinction of line 177 observable. -/

/-- A dataframe object on the heap: its rows, plus the
`Performance_Score` column once line 178 has added it. -/
structure DfObj where
  rows : List Record
  perf_col : Option (List ℚ)
deriving DecidableEq

/-- Read the dataframe object at reference `r` in the object store. -/
def readDf (st : List DfObj) (r : Nat) : DfObj := st.getD r ⟨[], none⟩

/-- Lines 177-181 as heap operations: `filtered_df_copy =
filtered_df.copy()` allocates a fresh cell holding the same value, then
`filtered_df_copy['Performance_Score'] = ...` mutates that fresh cell in
place.  Returns the new store and the reference bound to
`filtered_df_copy`. -/
def scorer_step (st : List DfObj) (filteredRef : Nat) : List DfObj × Nat :=
  let obj := readDf st filteredRef
  let st1 := st ++ [obj]
  let copyRef := st.length
  let st2 := st1.set copyRef { obj with perf_col := some (obj.rows.map performance_score_row) }
  (st2, copyRef)

/-! ### Export formatter (line 270) and its parser

`display_df.to_csv(index=False)` writes a header line with the column
names, then one comma-separated line per row, each terminated by a
newline.  Fields containing a comma, double quote, newline or carriage
return are quoted, with inner quotes doubled (csv QUOTE_MINIMAL).
Numbers are written as exact rationals (`num` or `num/den`) in place of
the float formatting of pandas; non-finite floats are written the way
pandas writes them (`inf`, `-inf`, and the empty cell for `nan`).

Modelled from the spec: the repository contains no parser for the
exported file (`read_csv` at line 10 is the external raw-data loader),
so `parseTable` below is the inverse reading required by §4.6:
"parsing the output reproduces the same rows and column set". -/

/-- Decimal digit characters. -/
def digitChar : Nat → Char
  | 0 => '0'
  | 1 => '1'
  | 2 => '2'
  | 3 => '3'
  | 4 => '4'
  | 5 => '5'
  | 6 => '6'
  | 7 => '7'
  | 8 => '8'
  | 9 => '9'
  | _ => '*'

/-- The ten digit characters. -/
def digitList : List Char := ['0', '1', '2', '3', '4', '5', '6', '7', '8', '9']

/-- Numeric value of a digit character. -/
def digitVal (c : Char) : Nat := c.toNat - 48

/-- Little-endian digit expansion of a natural number. -/
def toLE (n : Nat) : List Nat :=
  if h : n = 0 then [] else n % 10 :: toLE (n / 10)
termination_by n
decreasing_by exact Nat.div_lt_self (Nat.pos_of_ne_zero h) (by norm_num)

/-- Value of a little-endian digit list. -/
def fromLE : List Nat → Nat
  | [] => 0
  | d :: ds => d + 10 * fromLE ds

/-- Decimal rendering of a natural number. -/
def natChars (n : Nat) : List Char :=
  if n = 0 then ['0'] else (toLE n).reverse.map digitChar

/-- Parse a non-empty all-digit character list as a natural number. -/
def natParse (cs : List Char) : Option Nat :=
  if cs = [] then none
  else if cs.all (fun c => decide (c ∈ digitList)) then
    some (cs.foldl (fun a c => 10 * a + digitVal c) 0)
  else none

/-- Decimal rendering of an integer. -/
def intChars (n : Int) : List Char :=
  if n < 0 then '-' :: natChars n.natAbs else natChars n.toNat

/-- Parse an optionally `-`-signed digit string as an integer. -/
def intParse (cs : List Char) : Option Int :=
  match cs with
  | [] => none
  | c :: rest =>
    if c = '-' then (natParse rest).map fun m => -(m : Int)
    else (natParse (c :: rest)).map fun m => (m : Int)

/-- Split a character list at the first `/`, if any. -/
def splitSlash : List Char → List Char × Option (List Char)
  | [] => ([], none)
  | c :: cs =>
    if c = '/' then ([], some cs)
    else
      let p := splitSlash cs
      (c :: p.1, p.2)

/-- Exact rendering of a rational: `num` when the denominator is 1,
`num/den` otherwise. -/
def ratChars (q : ℚ) : List Char :=
  intChars q.num ++ (if q.den = 1 then [] else '/' :: natChars q.den)

/-- Parse the exact rational rendering. -/
def ratParse (cs : List Char) : Option ℚ :=
  let p := splitSlash cs
  match p.2 with
  | none => (intParse p.1).map fun n => (n : ℚ)
  | some ds =>
    match intParse p.1, natParse ds with
    | some n, some d => if d = 0 then none else some ((n : ℚ) / (d : ℚ))
    | _, _ => none

/-- Cell rendering of a possibly non-finite value, the way pandas
`to_csv` writes float cells: `nan` becomes the empty cell. -/
def valChars : Val → List Char
  | .num q => ratChars q
  | .posInf => ['i', 'n', 'f']
  | .negInf => ['-', 'i', 'n', 'f']
  | .nan => []

/-- Parse a possibly non-finite numeric cell. -/
def valParse (cs : List Char) : Option Val :=
  if cs = [] then some .nan
  else if cs = ['i', 'n', 'f'] then some .posInf
  else if cs = ['-', 'i', 'n', 'f'] then some .negInf
  else (ratParse cs).map .num

/-- Characters that force a field to be quoted (csv QUOTE_MINIMAL with
comma delimiter). -/
def specialCh (c : Char) : Bool := c == ',' || c == '"' || c == '\n' || c == '\r'

/-- Whether a field must be quoted. -/
def needsQuote (f : List Char) : Bool := f.any specialCh

/-- Double every inner quote of a quoted field body. -/
def escQuotes : List Char → List Char
  | [] => []
  | c :: cs => if c = '"' then '"' :: '"' :: escQuotes cs else c :: escQuotes cs

/-- csv field encoding: quote and double inner quotes when needed,
otherwise the raw field. -/
def escapeCh (f : List Char) : List Char :=
  if needsQuote f then '"' :: (escQuotes f ++ ['"']) else f

/-- Join already-escaped fields with commas and terminate the record
with a newline. -/
def renderFields : List (List Char) → List Char
  | [] => ['\n']
  | [f] => f ++ ['\n']
  | f :: fs => f ++ ',' :: renderFields fs

/-- Render a sequence of records. -/
def renderRecords (rows : List (List (List Char))) : List Char :=
  rows.foldr (fun r acc => renderFields (r.map escapeCh) ++ acc) []

/-- The cells of one `display_df` row, in column order. -/
def rowFields (r : DisplayRow) : List (List Char) :=
  [r.country.data, r.transport_type.data, ratChars r.Total_Usage,
   ratChars r.Avg_Annual_Usage, ratChars r.Avg_Satisfaction,
   ratChars r.Avg_CO2_Emissions, ratChars r.Avg_Urbanization,
   valChars r.Usage_per_Urban, valChars r.Satisfaction_Efficiency]

/-- The header cells: the column names set at lines 260-265. -/
def headerFields : List (List Char) :=
  ["Country".data, "Transport_Type".data, "Total_Usage".data,
   "Avg_Annual_Usage".data, "Avg_Satisfaction".data, "Avg_CO2_Emissions".data,
   "Avg_Urbanization".data, "Usage_per_Urban_%".data,
   "Satisfaction_Efficiency".data]

/-- Line 270: `display_df.to_csv(index=False)`. -/
def toDelimited (t : List DisplayRow) : String :=
  String.mk (renderRecords (headerFields :: t.map rowFields))

/-- Parse one quoted field after its opening quote: a doubled quote is a
literal quote, a quote followed by a separator closes the field (the
`Bool` is true when the separator was a newline). -/
def parseQuoted (acc : List Char) : List Char → Option (String × Bool × List Char)
  | [] => none
  | c :: cs =>
    if c = '"' then
      match cs with
      | [] => none
      | c2 :: rest =>
        if c2 = '"' then parseQuoted ('"' :: acc) rest
        else if c2 = ',' then some (⟨acc.reverse⟩, false, rest)
        else if c2 = '\n' then some (⟨acc.reverse⟩, true, rest)
        else none
    else parseQuoted (c :: acc) cs

/-- Parse one unquoted field: everything up to the next comma or
newline. -/
def parseUnquoted (acc : List Char) : List Char → Option (String × Bool × List Char)
  | [] => none
  | c :: cs =>
    if c = ',' then some (⟨acc.reverse⟩, false, cs)
    else if c = '\n' then some (⟨acc.reverse⟩, true, cs)
    else parseUnquoted (c :: acc) cs

/-- Parse one field together with its terminating separator. -/
def parseField : List Char → Option (String × Bool × List Char)
  | [] => none
  | c :: cs => if c = '"' then parseQuoted [] cs else parseUnquoted [] (c :: cs)

/-- Parse the fields of one record up to and including its newline; the
fuel bounds the number of fields. -/
def parseFieldsAux : Nat → List Char → Option (List String × List Char)
  | 0, _ => none
  | fuel + 1, cs =>
    match parseField cs with
    | none => none
    | some (f, true, rest) => some ([f], rest)
    | some (f, false, rest) =>
      match parseFieldsAux fuel rest with
      | none => none
      | some (fs, rest2) => some (f :: fs, rest2)

/-- Parse a sequence of newline-terminated records; the fuel bounds the
number of records. -/
def parseRecordsAux : Nat → List Char → Option (List (List String))
  | _, [] => some []
  | 0, _ :: _ => none
  | fuel + 1, c :: cs =>
    match parseFieldsAux (c :: cs).length (c :: cs) with
    | none => none
    | some (fs, rest) =>
      match parseRecordsAux fuel rest with
      | none => none
      | some rs => some (fs :: rs)

/-- Decode one parsed record into a `DisplayRow`. -/
def decodeRow (fs : List String) : Option DisplayRow :=
  match fs with
  | [c, t, f2, f3, f4, f5, f6, f7, f8] =>
    match ratParse f2.data, ratParse f3.data, ratParse f4.data,
          ratParse f5.data, ratParse f6.data, valParse f7.data, valParse f8.data with
    | some tu, some au, some sat, some co2, some urb, some upu, some se =>
      some { country := c, transport_type := t, Total_Usage := tu,
             Avg_Annual_Usage := au, Avg_Satisfaction := sat,
             Avg_CO2_Emissions := co2, Avg_Urbanization := urb,
             Usage_per_Urban := upu, Satisfaction_Efficiency := se }
    | _, _, _, _, _, _, _ => none
  | _ => none

/-- Decode all parsed data records. -/
def decodeRows : List (List String) → Option (List DisplayRow)
  | [] => some []
  | fs :: rest =>
    match decodeRow fs, decodeRows rest with
    | some r, some rs => some (r :: rs)
    | _, _ => none

/-- Parse the delimited export: split into records, check the header,
decode the data rows. -/
def parseTable (s : String) : Option (List DisplayRow) :=
  match parseRecordsAux (s.data.length + 1) s.data with
  | none => none
  | some [] => none
  | some (hd :: rows) =>
    if hd = headerFields.map (fun cs => String.mk cs) then decodeRows rows else none

/-! ### The whole analysis request (lines 48-276) -/

/-- Lines 55-57: the filtered dataset is empty; the script shows the
"no matching data" error and stops. -/
inductive EmptyResultError where
  | mk
deriving DecidableEq

/-- Everything the script computes downstream of the empty guard. -/
structure Output where
  total_usage_kpi : ℚ
  growth_rate_kpi : Val
  avg_satisfaction_kpi : ℚ
  best_satisfaction_kpi : ℚ
  avg_emissions_kpi : ℚ
  efficiency_kpi : Val
  markets : Nat
  yearly : List (Int × String × ℚ)
  tops : List PerfRow
  insight_list : List Insight
  display : List DisplayRow
  csv : String
deriving DecidableEq

/-- One analysis request: filter (lines 48-53), stop with
`EmptyResultError` when no row matches (lines 55-57), otherwise compute
every KPI, aggregate, ranking, insight and the export (lines 60-276). -/
def analyze (raw : List Record) (p : FilterParams) : Except EmptyResultError Output :=
  let fd := filtered_df raw p
  if fd.isEmpty then .error .mk
  else
    let g := growth_rate fd p
    let sat := avg_satisfaction fd
    let em := avg_emissions fd
    .ok { total_usage_kpi := total_usage fd
          growth_rate_kpi := g
          avg_satisfaction_kpi := sat
          best_satisfaction_kpi := best_satisfaction raw
          avg_emissions_kpi := em
          efficiency_kpi := efficiency_score fd
          markets := countries_count fd
          yearly := yearly_data fd
          tops := top_performers fd
          insight_list := insights g sat em (top_performers fd)
          display := display_df fd
          csv := toDelimited (display_df fd) }

/-! ### Concrete datasets used by counterexamples and witnesses -/

/-- A filtered dataset with a row only at the end year: the start-year
usage sum is zero. -/
def c3df : List Record := [⟨"A", 2021, "Bus", 100, 4, 1, 50⟩]

/-- Parameters with distinct year bounds matching `c3df`. -/
def c3p : FilterParams := ⟨["A"], 2020, 2021, ["Bus"], 0⟩

/-- A two-year dataset with non-zero start-year usage. -/
def c3wdf : List Record :=
  [⟨"A", 2020, "Bus", 300, 4, 1, 50⟩, ⟨"A", 2021, "Bus", 150, 4, 1, 50⟩]

/-- Parameters with distinct year bounds matching `c3wdf`. -/
def c3wp : FilterParams := ⟨["A"], 2020, 2021, ["Bus"], 0⟩

/-- A dataset whose only group has zero mean emissions and zero mean
urbanization. -/
def c4df : List Record := [⟨"A", 2020, "Bus", 1000000, 4, 0, 0⟩]

/-- A dataset whose only group has mean urbanization 2/3, which rounds
to 0.67. -/
def c5df : List Record :=
  [⟨"A", 2020, "Bus", 100, 4, 1, 1⟩, ⟨"A", 2020, "Bus", 100, 4, 1, 1⟩,
   ⟨"A", 2021, "Bus", 100, 4, 1, 0⟩]

/-- A one-row dataset. -/
def oneRow : List Record := [⟨"A", 2020, "Bus", 100, 4, 1, 50⟩]

/-! ### Claim theorems -/

/-- C1: the filter engine keeps exactly the rows satisfying the four
predicates of §4.1 (country selected, year within the inclusive range,
transport type selected, satisfaction at least the minimum); an empty
country or transport-type selection gives an empty result, and the kept
rows appear in their original relative order (the result is a sublist of
the raw dataset). -/
theorem filtered_df_correct (df : List Record) (p : FilterParams) :
    filtered_df df p = df.filter (fun r => decide (RowPred p r)) ∧
    (p.countries = [] → filtered_df df p = []) ∧
    (p.transport_types = [] → filtered_df df p = []) ∧
    List.Sublist (filtered_df df p) df := by
  have hcongr : filtered_df df p = df.filter (fun r => decide (RowPred p r)) := by
    apply List.filter_congr
    intro r _
    simp only [RowPred, Bool.decide_and, Bool.and_assoc]
  refine ⟨hcongr, ?_, ?_, List.filter_sublist df⟩
  · intro h
    rw [hcongr]
    apply List.filter_eq_nil_iff.mpr
    intro r _
    simp [RowPred, h]
  · intro h
    rw [hcongr]
    apply List.filter_eq_nil_iff.mpr
    intro r _
    simp [RowPred, h]

/-- Witness for C1: with no country selected, the filter of a concrete
one-row dataset is empty. -/
theorem filtered_df_correct_witness :
    filtered_df oneRow ⟨[], 2019, 2021, ["Bus"], 0⟩ = [] :=
  (filtered_df_correct oneRow ⟨[], 2019, 2021, ["Bus"], 0⟩).2.1 rfl

/-- C2: when the filtered dataset is empty, the request stops with
`EmptyResultError` and produces no downstream value (no KPI, aggregate,
ranking, insight or export appears in an `Output`). -/
theorem analyze_empty_error (raw : List Record) (p : FilterParams)
    (h : filtered_df raw p = []) : analyze raw p = .error .mk := by
  simp [analyze, h]

/-- Witness for C2 at a concrete dataset with an empty country
selection. -/
theorem analyze_empty_error_witness :
    filtered_df oneRow ⟨[], 2019, 2021, ["Bus"], 0⟩ = [] ∧
    analyze oneRow ⟨[], 2019, 2021, ["Bus"], 0⟩ = .error .mk :=
  ⟨by simp [filtered_df, oneRow],
   analyze_empty_error oneRow ⟨[], 2019, 2021, ["Bus"], 0⟩ (by simp [filtered_df, oneRow])⟩

/-- C3 counterexample: on a reachable filtered dataset whose start-year
usage sum is zero (and whose year bounds differ), the code divides by
zero and the growth rate is `inf`, not the claimed 0. -/
theorem growth_rate_zero_start_cex :
    c3p.year_hi ≠ c3p.year_lo ∧ usage_in_year c3df c3p.year_lo = 0 ∧
    filtered_df c3df c3p = c3df ∧ growth_rate c3df c3p = Val.posInf := by
  refine ⟨by norm_num [c3p], ?_, ?_, ?_⟩
  · norm_num [c3df, c3p, usage_in_year, total_usage]
  · norm_num [c3df, c3p, filtered_df]
  · have h0 : usage_in_year c3df c3p.year_lo = 0 := by
      norm_num [c3df, c3p, usage_in_year, total_usage]
    have h1 : usage_in_year c3df c3p.year_hi = 100 := by
      norm_num [c3df, c3p, usage_in_year, total_usage]
    rw [growth_rate, if_neg (by norm_num [c3p]), h0, h1]
    norm_num [vdiv, vmul100]

/-- C3 as amended: equal year bounds give growth 0; with distinct bounds
and a non-zero start sum the growth is `(U_end - U_start) / U_start *
100`; with a zero start sum the code produces a non-finite float
(`inf`, `-inf` or `nan`), not 0. -/
theorem growth_rate_characterization (df : List Record) (p : FilterParams) :
    (p.year_hi = p.year_lo → growth_rate df p = .num 0) ∧
    (p.year_hi ≠ p.year_lo → usage_in_year df p.year_lo ≠ 0 →
      growth_rate df p =
        .num ((usage_in_year df p.year_hi - usage_in_year df p.year_lo) /
          usage_in_year df p.year_lo * 100)) ∧
    (p.year_hi ≠ p.year_lo → usage_in_year df p.year_lo = 0 →
      (growth_rate df p).finite = false) := by
  refine ⟨fun h => by simp [growth_rate, h], fun h1 h2 => ?_, fun h1 h2 => ?_⟩
  · simp [growth_rate, h1, vdiv, vmul100, h2]
  · simp only [growth_rate, h1, if_false, vdiv, h2, if_true, if_pos rfl]
    split_ifs <;> rfl

/-- Witness for the amended C3 at a concrete two-year dataset. -/
theorem growth_rate_characterization_witness :
    growth_rate c3wdf c3wp =
      .num ((usage_in_year c3wdf c3wp.year_hi - usage_in_year c3wdf c3wp.year_lo) /
        usage_in_year c3wdf c3wp.year_lo * 100) :=
  (growth_rate_characterization c3wdf c3wp).2.1 (by norm_num [c3wp])
    (by norm_num [c3wdf, c3wp, usage_in_year, total_usage])

/-- The single group key of `c4df`. -/
theorem c4df_keys : group_keys_ct c4df = [("A", "Bus")] := rfl

/-- The rows of the single group of `c4df`. -/
theorem c4df_rows : rows_ct c4df ("A", "Bus") = c4df := rfl

/-- The detailed table of `c4df` has exactly its one group row. -/
theorem c4df_display : display_df c4df = [display_row c4df ("A", "Bus")] := by
  simp [display_df, c4df_keys]

/-- C4 counterexample: on a dataset whose mean emissions and mean
urbanization are zero, the efficiency score and both derived table
ratios are `inf` — the non-finite value is produced and kept, nothing is
reported as unavailable. -/
theorem ratio_nonfinite_cex :
    avg_emissions c4df = 0 ∧ efficiency_score c4df = Val.posInf ∧
    (display_df c4df).map (fun row => row.Usage_per_Urban) = [Val.posInf] ∧
    (display_df c4df).map (fun row => row.Satisfaction_Efficiency) = [Val.posInf] := by
  have hem : avg_emissions c4df = 0 := by norm_num [c4df, avg_emissions, mean]
  have hsat : avg_satisfaction c4df = 4 := by norm_num [c4df, avg_satisfaction, mean]
  have htu : total_usage c4df = 1000000 := by norm_num [c4df, total_usage]
  have hurb : mean (c4df.map (·.urbanization_rate_percent)) = 0 := by
    norm_num [c4df, mean]
  refine ⟨hem, ?_, ?_, ?_⟩
  · rw [efficiency_score, hem, hsat, htu, vdiv, if_pos rfl, if_pos (by norm_num)]
  · rw [c4df_display]
    simp only [List.map_cons, List.map_nil, display_row, c4df_rows, hem, hsat, htu, hurb]
    rw [show round2 0 = 0 from by norm_num [round2, roundHalfEven],
        show round2 (1000000 : ℚ) = 1000000 from by norm_num [round2, roundHalfEven],
        vdiv, if_pos rfl, if_pos (by norm_num)]
  · rw [c4df_display]
    simp only [List.map_cons, List.map_nil, display_row, c4df_rows, hem, hsat, htu, hurb]
    rw [show round2 0 = 0 from by norm_num [round2, roundHalfEven],
        show round2 (4 : ℚ) = 4 from by norm_num [round2, roundHalfEven],
        vdiv, if_pos rfl, if_pos (by norm_num)]

/-- C4 as amended: the code divides unconditionally, so each ratio is
finite exactly when its denominator is non-zero; a zero denominator
yields a non-finite float that stays in the output. -/
theorem ratio_nonfinite_characterization (df : List Record) :
    ((efficiency_score df).finite = true ↔ avg_emissions df ≠ 0) ∧
    ∀ row ∈ display_df df,
      ((row.Usage_per_Urban.finite = true ↔ row.Avg_Urbanization ≠ 0) ∧
       (row.Satisfaction_Efficiency.finite = true ↔ row.Avg_CO2_Emissions ≠ 0)) := by
  constructor
  · unfold efficiency_score vdiv
    split_ifs with h <;> simp [Val.finite, h]
  · intro row hrow
    simp only [display_df, List.mem_map] at hrow
    obtain ⟨k, hk, rfl⟩ := hrow
    constructor
    · show (vdiv _ _).finite = true ↔ _
      unfold vdiv
      split_ifs with h <;> simp [Val.finite, h, display_row]
    · show (vdiv _ _).finite = true ↔ _
      unfold vdiv
      split_ifs with h <;> simp [Val.finite, h, display_row]

/-- Witness for the amended C4 at the concrete one-group dataset. -/
theorem ratio_nonfinite_characterization_witness :
    display_row c4df ("A", "Bus") ∈ display_df c4df ∧
    (((display_row c4df ("A", "Bus")).Usage_per_Urban.finite = true ↔
        (display_row c4df ("A", "Bus")).Avg_Urbanization ≠ 0) ∧
     ((display_row c4df ("A", "Bus")).Satisfaction_Efficiency.finite = true ↔
        (display_row c4df ("A", "Bus")).Avg_CO2_Emissions ≠ 0)) :=
  ⟨by rw [c4df_display]; exact List.mem_singleton_self _,
   (ratio_nonfinite_characterization c4df).2 _
     (by rw [c4df_display]; exact List.mem_singleton_self _)⟩

/-- C5 counterexample: the table ratio is computed from the rounded
aggregates, so it differs from the ratio of the full-precision
aggregates: with urbanization mean 2/3 (rounded to 0.67) and total usage
300 the code yields 30000/67 where the spec requires 450. -/
theorem display_ratio_rounding_cex :
    (display_row c5df ("A", "Bus")).Usage_per_Urban = Val.num (30000 / 67) ∧
    usage_per_urban_spec c5df ("A", "Bus") = Val.num 450 ∧
    (display_row c5df ("A", "Bus")).Usage_per_Urban ≠ usage_per_urban_spec c5df ("A", "Bus") ∧
    display_df c5df = [display_row c5df ("A", "Bus")] := by
  have hrows : rows_ct c5df ("A", "Bus") = c5df := rfl
  have htu : total_usage c5df = 300 := by norm_num [c5df, total_usage]
  have hurb : mean (c5df.map (·.urbanization_rate_percent)) = 2 / 3 := by
    norm_num [c5df, mean]
  have h1 : (display_row c5df ("A", "Bus")).Usage_per_Urban = Val.num (30000 / 67) := by
    show vdiv _ _ = _
    rw [hrows, htu, hurb,
        show round2 (300 : ℚ) = 300 from by norm_num [round2, roundHalfEven],
        show round2 ((2 : ℚ) / 3) = 67 / 100 from by norm_num [round2, roundHalfEven],
        vdiv, if_neg (by norm_num)]
    norm_num
  have h2 : usage_per_urban_spec c5df ("A", "Bus") = Val.num 450 := by
    rw [usage_per_urban_spec, hrows, htu, hurb, vdiv, if_neg (by norm_num)]
    norm_num
  refine ⟨h1, h2, ?_, ?_⟩
  · rw [h1, h2]
    simp only [ne_eq, Val.num.injEq]
    norm_num
  · have hkeys : group_keys_ct c5df = [("A", "Bus")] := rfl
    simp [display_df, hkeys]

/-- C5 as amended: `.round(2)` is applied to the group aggregates first,
and each derived ratio is then computed from those rounded aggregates
(the ratios themselves are not rounded further). -/
theorem display_ratio_from_rounded (df : List Record) (row : DisplayRow)
    (h : row ∈ display_df df) :
    ∃ k ∈ group_keys_ct df,
      row = display_row df k ∧
      row.Usage_per_Urban = vdiv (round2 (total_usage (rows_ct df k)))
        (round2 (mean ((rows_ct df k).map (·.urbanization_rate_percent)))) ∧
      row.Satisfaction_Efficiency = vdiv (round2 (avg_satisfaction (rows_ct df k)))
        (round2 (avg_emissions (rows_ct df k))) := by
  simp only [display_df, List.mem_map] at h
  obtain ⟨k, hk, rfl⟩ := h
  exact ⟨k, hk, rfl, rfl, rfl⟩

/-- Witness for the amended C5 at the concrete dataset. -/
theorem display_ratio_from_rounded_witness :
    ∃ k ∈ group_keys_ct c5df,
      display_row c5df ("A", "Bus") = display_row c5df k ∧
      (display_row c5df ("A", "Bus")).Usage_per_Urban =
        vdiv (round2 (total_usage (rows_ct c5df k)))
          (round2 (mean ((rows_ct c5df k).map (·.urbanization_rate_percent)))) ∧
      (display_row c5df ("A", "Bus")).Satisfaction_Efficiency =
        vdiv (round2 (avg_satisfaction (rows_ct c5df k)))
          (round2 (avg_emissions (rows_ct c5df k))) :=
  display_ratio_from_rounded c5df _
    (by rw [show display_df c5df = [display_row c5df ("A", "Bus")] from by
              simp [display_df, show group_keys_ct c5df = [("A", "Bus")] from rfl]]
        exact List.mem_singleton_self _)

/-- C7: the insight sequence contains each threshold insight exactly
under its condition (growth through the float comparisons `val_gt`
`val_lt`, which also cover a non-finite growth rate), always contains
the top-performer summary naming the top group, and never contains both
insights of a mutually exclusive pair.  `insights` is a total function:
the generator cannot raise. -/
theorem insights_characterization (g : Val) (sat em : ℚ) (tops : List PerfRow) :
    (Insight.strongGrowth ∈ insights g sat em tops ↔ val_gt g 10 = true) ∧
    (Insight.declining ∈ insights g sat em tops ↔ val_lt g (-5) = true) ∧
    (Insight.highSatisfaction ∈ insights g sat em tops ↔ 4 < sat) ∧
    (Insight.lowSatisfaction ∈ insights g sat em tops ↔ sat < 3) ∧
    (Insight.ecoFriendly ∈ insights g sat em tops ↔ em < 2) ∧
    (Insight.highEmissions ∈ insights g sat em tops ↔ 5 < em) ∧
    Insight.topPerformer (best_transport tops) ∈ insights g sat em tops ∧
    ¬(Insight.strongGrowth ∈ insights g sat em tops ∧
      Insight.declining ∈ insights g sat em tops) ∧
    ¬(Insight.highSatisfaction ∈ insights g sat em tops ∧
      Insight.lowSatisfaction ∈ insights g sat em tops) ∧
    ¬(Insight.ecoFriendly ∈ insights g sat em tops ∧
      Insight.highEmissions ∈ insights g sat em tops) := by
  rcases g with q | _ | _ | _ <;>
    simp only [insights, val_gt, val_lt, decide_eq_true_eq] <;>
    split_ifs <;>
    simp_all <;>
    (repeat' constructor) <;>
    linarith

/-- Witness for C7 at concrete KPI values: a 20 percent growth rate
produces the strong-growth insight. -/
theorem insights_characterization_witness :
    Insight.strongGrowth ∈ insights (.num 20) 5 1 [] :=
  (insights_characterization (.num 20) 5 1 []).1.mpr (by norm_num [val_gt])

/-- C9: with a non-empty filtered dataset the ranked sequence is
non-empty, so the "N/A" sentinel branch of line 242 is unreachable and
the top-performer insight names a transport type present in the
filtered rows. -/
theorem best_transport_present (df : List Record) (h : df ≠ []) :
    top_performers df ≠ [] ∧
    best_transport (top_performers df) ∈ df.map (·.transport_type) := by
  obtain ⟨r, hr⟩ := List.exists_mem_of_ne_nil df h
  have hkey : key_ct r ∈ group_keys_ct df := by
    unfold group_keys_ct
    rw [List.mem_insertionSort, List.mem_dedup]
    exact List.mem_map_of_mem key_ct hr
  have hlen : (top_performers df).length = (group_keys_ct df).length := by
    unfold top_performers
    rw [List.length_insertionSort, List.length_map]
  have htops_ne : top_performers df ≠ [] := by
    intro hnil
    rw [hnil] at hlen
    exact List.ne_nil_of_mem hkey (List.length_eq_zero.mp hlen.symm)
  refine ⟨htops_ne, ?_⟩
  obtain ⟨g, gs, hg⟩ := List.exists_cons_of_ne_nil htops_ne
  rw [hg]
  show g.transport_type ∈ _
  have hgmem : g ∈ (group_keys_ct df).map (perf_row df) := by
    have hgm : g ∈ top_performers df := by
      rw [hg]; exact List.mem_cons_self g gs
    unfold top_performers at hgm
    exact (List.mem_insertionSort _).mp hgm
  obtain ⟨k, hk, hpk⟩ := List.mem_map.mp hgmem
  have hk2 : k ∈ df.map key_ct := by
    unfold group_keys_ct at hk
    rw [List.mem_insertionSort, List.mem_dedup] at hk
    exact hk
  obtain ⟨r2, hr2, hkr2⟩ := List.mem_map.mp hk2
  have hgt : g.transport_type = r2.transport_type := by
    rw [← hpk]
    show k.2 = r2.transport_type
    rw [← hkr2]
    rfl
  rw [hgt]
  exact List.mem_map_of_mem (·.transport_type) hr2

/-- Witness for C9 at a concrete one-row dataset. -/
theorem best_transport_present_witness :
    top_performers oneRow ≠ [] ∧
    best_transport (top_performers oneRow) ∈ oneRow.map (·.transport_type) :=
  best_transport_present oneRow (by simp [oneRow])

/-- Setting the cell just past `l` in `l ++ [x]` replaces only that
cell. -/
theorem set_append_length (l : List DfObj) (x v : DfObj) :
    (l ++ [x]).set l.length v = l ++ [v] := by
  induction l with
  | nil => rfl
  | cons a t ih =>
    show a :: (t ++ [x]).set t.length v = a :: (t ++ [v])
    rw [ih]

/-- C10: the Performance Scorer works on a fresh copy: after lines
177-181 the cell that `filtered_df` references is unchanged (no
`Performance_Score` column, no altered field), the copy lives at a
different reference, and the later detailed-metrics aggregation of
lines 253-265 therefore sees exactly the Filter Engine output. -/
theorem scorer_step_frame (st : List DfObj) (r : Nat) (h : r < st.length) :
    readDf (scorer_step st r).1 r = readDf st r ∧
    (scorer_step st r).2 ≠ r ∧
    display_df (readDf (scorer_step st r).1 r).rows = display_df (readDf st r).rows := by
  have hst : (scorer_step st r).1 =
      st ++ [{ rows := (readDf st r).rows,
               perf_col := some ((readDf st r).rows.map performance_score_row) }] :=
    set_append_length st (readDf st r) _
  have hread : readDf (scorer_step st r).1 r = readDf st r := by
    rw [hst]
    unfold readDf
    exact List.getD_append _ _ _ _ h
  refine ⟨hread, ?_, by rw [hread]⟩
  show st.length ≠ r
  exact fun hc => Nat.lt_irrefl r (hc ▸ h)

/-- Witness for C10 at a concrete one-cell store. -/
theorem scorer_step_frame_witness :
    readDf (scorer_step [⟨oneRow, none⟩] 0).1 0 = readDf [⟨oneRow, none⟩] 0 ∧
    (scorer_step [⟨oneRow, none⟩] 0).2 ≠ 0 ∧
    display_df (readDf (scorer_step [⟨oneRow, none⟩] 0).1 0).rows =
      display_df (readDf [⟨oneRow, none⟩] 0).rows :=
  scorer_step_frame [⟨oneRow, none⟩] 0 (by simp)

/-! ### Round-trip lemmas for the export formatter -/

/-- The character list of a literal `String.mk`. -/
theorem data_mk (cs : List Char) : (String.mk cs).data = cs := rfl

/-- Every digit produced by `toLE` is below 10. -/
theorem toLE_lt_ten (n : Nat) : ∀ d ∈ toLE n, d < 10 := by
  induction n using Nat.strong_induction_on with
  | _ n ih =>
    rw [toLE]
    split_ifs with h
    · intro d hd
      simp at hd
    · intro d hd
      rcases List.mem_cons.mp hd with h1 | h2
      · subst h1
        exact Nat.mod_lt _ (by norm_num)
      · exact ih (n / 10) (Nat.div_lt_self (Nat.pos_of_ne_zero h) (by norm_num)) d h2

/-- The map `fromLE` inverts `toLE`. -/
theorem fromLE_toLE (n : Nat) : fromLE (toLE n) = n := by
  induction n using Nat.strong_induction_on with
  | _ n ih =>
    rw [toLE]
    split_ifs with h
    · simp [fromLE, h]
    · rw [fromLE, ih (n / 10) (Nat.div_lt_self (Nat.pos_of_ne_zero h) (by norm_num))]
      exact Nat.mod_add_div n 10

/-- The digits `toLE` of a non-zero number are non-empty. -/
theorem toLE_ne_nil (n : Nat) (h : n ≠ 0) : toLE n ≠ [] := by
  rw [toLE, dif_neg h]
  simp

/-- Digit characters of digits below 10 are in `digitList`. -/
theorem digitChar_mem (d : Nat) (h : d < 10) : digitChar d ∈ digitList := by
  interval_cases d <;> decide

/-- The value `digitVal` inverts `digitChar` below 10. -/
theorem digitVal_digitChar (d : Nat) (h : d < 10) : digitVal (digitChar d) = d := by
  interval_cases d <;> rfl

/-- Digit characters are not the minus sign, not the slash, and not a
csv special character. -/
theorem digit_facts (c : Char) (h : c ∈ digitList) :
    c ≠ Char.ofNat 45 ∧ c ≠ Char.ofNat 47 ∧ specialCh c = false := by
  fin_cases h <;> decide

/-- The rendering `natChars` is never empty. -/
theorem natChars_ne_nil (n : Nat) : natChars n ≠ [] := by
  rw [natChars]
  split_ifs with h
  · simp
  · simp [toLE_ne_nil n h]

/-- Every character of `natChars` is a digit. -/
theorem natChars_mem_digitList (n : Nat) : ∀ c ∈ natChars n, c ∈ digitList := by
  intro c hc
  rw [natChars] at hc
  split_ifs at hc with h
  · rcases List.mem_singleton.mp hc with rfl
    decide
  · simp only [List.mem_map, List.mem_reverse] at hc
    obtain ⟨d, hd, rfl⟩ := hc
    exact digitChar_mem d (toLE_lt_ten n d hd)

/-- Evaluating the most-significant-first digit fold. -/
theorem foldl_digits (L : List Nat) (hL : ∀ d ∈ L, d < 10) (a : Nat) :
    (L.reverse.map digitChar).foldl (fun x c => 10 * x + digitVal c) a
      = a * 10 ^ L.length + fromLE L := by
  induction L generalizing a with
  | nil => simp [fromLE]
  | cons d ds ih =>
    have hds : ∀ x ∈ ds, x < 10 := fun x hx => hL x (List.mem_cons_of_mem _ hx)
    have hd : d < 10 := hL d (List.mem_cons_self _ _)
    rw [List.reverse_cons, List.map_append, List.foldl_append, ih hds]
    simp only [List.map_cons, List.map_nil, List.foldl_cons, List.foldl_nil,
      digitVal_digitChar d hd, fromLE, List.length_cons]
    ring

/-- The parser `natParse` inverts `natChars`. -/
theorem natParse_natChars (n : Nat) : natParse (natChars n) = some n := by
  by_cases h : n = 0
  · subst h
    decide
  · rw [natChars, if_neg h, natParse]
    have hne : ¬((toLE n).reverse.map digitChar = []) := by
      simp [toLE_ne_nil n h]
    rw [if_neg hne]
    have hall : ((toLE n).reverse.map digitChar).all (fun c => decide (c ∈ digitList)) = true := by
      rw [List.all_eq_true]
      intro c hc
      simp only [List.mem_map, List.mem_reverse] at hc
      obtain ⟨d, hd, rfl⟩ := hc
      simpa using digitChar_mem d (toLE_lt_ten n d hd)
    rw [if_pos hall, foldl_digits (toLE n) (toLE_lt_ten n) 0, fromLE_toLE]
    simp

/-- The rendering `intChars` is never empty. -/
theorem intChars_ne_nil (n : Int) : intChars n ≠ [] := by
  rw [intChars]
  split_ifs with h
  · simp
  · exact natChars_ne_nil _

/-- Every character of `intChars` is a digit or the minus sign. -/
theorem intChars_allowed (n : Int) :
    ∀ c ∈ intChars n, c ∈ digitList ∨ c = Char.ofNat 45 := by
  intro c hc
  rw [intChars] at hc
  split_ifs at hc with h
  · rcases List.mem_cons.mp hc with h1 | h2
    · right
      rw [h1]
    · exact Or.inl (natChars_mem_digitList _ _ h2)
  · exact Or.inl (natChars_mem_digitList _ _ hc)

/-- The parser `intParse` inverts `intChars`. -/
theorem intParse_intChars (n : Int) : intParse (intChars n) = some n := by
  by_cases h : n < 0
  · rw [intChars, if_pos h]
    show intParse (Char.ofNat 45 :: natChars n.natAbs) = some n
    rw [intParse, if_pos rfl, natParse_natChars]
    have hn : -((n.natAbs : Int)) = n := by omega
    show some (-((n.natAbs : Int))) = some n
    rw [hn]
  · rw [intChars, if_neg h]
    cases hnc : natChars n.toNat with
    | nil => exact absurd hnc (natChars_ne_nil _)
    | cons c cs =>
      have hcd : c ∈ digitList := by
        apply natChars_mem_digitList n.toNat
        rw [hnc]
        exact List.mem_cons_self _ _
      rw [intParse, if_neg (digit_facts c hcd).1, ← hnc, natParse_natChars]
      have hn : ((n.toNat : Int)) = n := by omega
      show some ((n.toNat : Int)) = some n
      rw [hn]

/-- The split `splitSlash` leaves a slash-free list whole. -/
theorem splitSlash_no_slash (xs : List Char) (h : ∀ c ∈ xs, c ≠ Char.ofNat 47) :
    splitSlash xs = (xs, none) := by
  induction xs with
  | nil => rfl
  | cons c cs ih =>
    simp only [splitSlash, if_neg (h c (List.mem_cons_self _ _)),
      ih (fun x hx => h x (List.mem_cons_of_mem _ hx))]

/-- The split `splitSlash` cuts at the first slash. -/
theorem splitSlash_append (xs ys : List Char) (h : ∀ c ∈ xs, c ≠ Char.ofNat 47) :
    splitSlash (xs ++ Char.ofNat 47 :: ys) = (xs, some ys) := by
  induction xs with
  | nil =>
    rw [List.nil_append, splitSlash, if_pos rfl]
  | cons c cs ih =>
    rw [List.cons_append]
    simp only [splitSlash, if_neg (h c (List.mem_cons_self _ _)),
      ih (fun x hx => h x (List.mem_cons_of_mem _ hx))]

/-- Every character of `ratChars` is a digit, the minus sign or the
slash. -/
theorem ratChars_allowed (q : ℚ) :
    ∀ c ∈ ratChars q, c ∈ digitList ∨ c = Char.ofNat 45 ∨ c = Char.ofNat 47 := by
  intro c hc
  rw [ratChars] at hc
  rcases List.mem_append.mp hc with h1 | h2
  · rcases intChars_allowed q.num c h1 with hd | hm
    · exact Or.inl hd
    · exact Or.inr (Or.inl hm)
  · split_ifs at h2 with hden
    · simp at h2
    · rcases List.mem_cons.mp h2 with h3 | h4
      · exact Or.inr (Or.inr h3)
      · exact Or.inl (natChars_mem_digitList _ _ h4)

/-- The rendering `ratChars` is never empty. -/
theorem ratChars_ne_nil (q : ℚ) : ratChars q ≠ [] := by
  rw [ratChars]
  intro h
  exact intChars_ne_nil q.num (List.append_eq_nil.mp h).1

/-- The parser `ratParse` inverts `ratChars`. -/
theorem ratParse_ratChars (q : ℚ) : ratParse (ratChars q) = some q := by
  have hint : ∀ c ∈ intChars q.num, c ≠ Char.ofNat 47 := by
    intro c hc
    rcases intChars_allowed q.num c hc with hd | hm
    · exact (digit_facts c hd).2.1
    · rw [hm]
      decide
  by_cases hden : q.den = 1
  · rw [ratChars, if_pos hden, List.append_nil]
    simp only [ratParse, splitSlash_no_slash _ hint]
    rw [intParse_intChars]
    have hq : ((q.num : ℚ)) = q := by
      conv_rhs => rw [← Rat.num_div_den q]
      rw [hden]
      norm_num
    show some ((q.num : ℚ)) = some q
    rw [hq]
  · rw [ratChars, if_neg hden]
    simp only [ratParse, splitSlash_append _ _ hint]
    rw [intParse_intChars, natParse_natChars]
    show (if q.den = 0 then none else some ((q.num : ℚ) / (q.den : ℚ))) = some q
    rw [if_neg q.den_nz, Rat.num_div_den]

/-- The rendering `ratChars` is never one of the non-finite cell
spellings. -/
theorem ratChars_ne_inf (q : ℚ) :
    ratChars q ≠ ['i', 'n', 'f'] ∧ ratChars q ≠ ['-', 'i', 'n', 'f'] := by
  have key : 'i' ∉ ratChars q := by
    intro hi
    rcases ratChars_allowed q _ hi with hd | h45 | h47
    · exact absurd hd (by decide)
    · exact absurd h45 (by decide)
    · exact absurd h47 (by decide)
  constructor <;> intro heq <;> apply key <;> rw [heq] <;> decide

/-- The parser `valParse` inverts `valChars`. -/
theorem valParse_valChars (v : Val) : valParse (valChars v) = some v := by
  cases v with
  | nan => rfl
  | posInf => rfl
  | negInf => rfl
  | num q =>
    rw [valChars, valParse, if_neg (ratChars_ne_nil q),
      if_neg (ratChars_ne_inf q).1, if_neg (ratChars_ne_inf q).2, ratParse_ratChars]
    rfl

/-- A field that needs no quoting contains no csv special character. -/
theorem needsQuote_false_facts (f : List Char) (h : needsQuote f = false) :
    ∀ c ∈ f, c ≠ ',' ∧ c ≠ '"' ∧ c ≠ Char.ofNat 10 ∧ c ≠ Char.ofNat 13 := by
  intro c hc
  have h2 : specialCh c = false := by
    by_contra hne
    have htrue : needsQuote f = true :=
      List.any_eq_true.mpr ⟨c, hc, by simpa using hne⟩
    rw [htrue] at h
    exact Bool.noConfusion h
  rw [specialCh] at h2
  simp only [Bool.or_eq_false_iff, beq_eq_false_iff_ne, ne_eq] at h2
  exact ⟨h2.1.1.1, h2.1.1.2, h2.1.2, h2.2⟩

/-- Parsing an unquoted special-free field stops exactly at the
separator. -/
theorem parseUnquoted_raw :
    ∀ (f : List Char), (∀ c ∈ f, c ≠ ',' ∧ c ≠ Char.ofNat 10) → ∀ acc rest,
    parseUnquoted acc (f ++ ',' :: rest) = some (⟨acc.reverse ++ f⟩, false, rest) ∧
    parseUnquoted acc (f ++ Char.ofNat 10 :: rest) = some (⟨acc.reverse ++ f⟩, true, rest) := by
  intro f
  induction f with
  | nil =>
    intro _ acc rest
    constructor
    · show parseUnquoted acc (',' :: rest) = _
      simp [parseUnquoted]
    · show parseUnquoted acc (Char.ofNat 10 :: rest) = _
      simp [parseUnquoted]
  | cons c f ih =>
    intro hf acc rest
    have hc := hf c (List.mem_cons_self _ _)
    have htail := fun x hx => hf x (List.mem_cons_of_mem _ hx)
    constructor
    · show parseUnquoted acc (c :: (f ++ ',' :: rest)) = _
      simp only [parseUnquoted, if_neg hc.1, if_neg hc.2]
      rw [(ih htail (c :: acc) rest).1]
      simp [List.reverse_cons, List.append_assoc]
    · show parseUnquoted acc (c :: (f ++ Char.ofNat 10 :: rest)) = _
      simp only [parseUnquoted, if_neg hc.1, if_neg hc.2]
      rw [(ih htail (c :: acc) rest).2]
      simp [List.reverse_cons, List.append_assoc]

/-- Unfolding of the quoted-field parser at an ordinary character. -/
theorem parseQuoted_cons_ne (acc : List Char) (c : Char) (cs : List Char) (h : c ≠ '"') :
    parseQuoted acc (c :: cs) = parseQuoted (c :: acc) cs := by
  rw [parseQuoted.eq_def]
  simp only [if_neg h]

/-- Parsing a quote-doubled field body stops exactly at the closing
quote and separator. -/
theorem parseQuoted_esc :
    ∀ (f : List Char) (acc rest : List Char),
    parseQuoted acc (escQuotes f ++ '"' :: ',' :: rest) =
      some (⟨acc.reverse ++ f⟩, false, rest) ∧
    parseQuoted acc (escQuotes f ++ '"' :: Char.ofNat 10 :: rest) =
      some (⟨acc.reverse ++ f⟩, true, rest) := by
  intro f
  induction f with
  | nil =>
    intro acc rest
    constructor
    · show parseQuoted acc ('"' :: ',' :: rest) = _
      simp [parseQuoted]
    · show parseQuoted acc ('"' :: Char.ofNat 10 :: rest) = _
      simp [parseQuoted]
  | cons c f ih =>
    intro acc rest
    by_cases hc : c = '"'
    · subst hc
      have hesc : escQuotes ('"' :: f) = '"' :: '"' :: escQuotes f := by
        rw [escQuotes, if_pos rfl]
      constructor
      · rw [hesc, List.cons_append, List.cons_append]
        simp only [parseQuoted, if_pos rfl]
        rw [(ih ('"' :: acc) rest).1]
        simp [List.reverse_cons, List.append_assoc]
      · rw [hesc, List.cons_append, List.cons_append]
        simp only [parseQuoted, if_pos rfl]
        rw [(ih ('"' :: acc) rest).2]
        simp [List.reverse_cons, List.append_assoc]
    · have hesc : escQuotes (c :: f) = c :: escQuotes f := by
        rw [escQuotes, if_neg hc]
      constructor
      · rw [hesc, List.cons_append, parseQuoted_cons_ne _ _ _ hc,
          (ih (c :: acc) rest).1]
        simp [List.reverse_cons, List.append_assoc]
      · rw [hesc, List.cons_append, parseQuoted_cons_ne _ _ _ hc,
          (ih (c :: acc) rest).2]
        simp [List.reverse_cons, List.append_assoc]

/-- Parsing an escaped field followed by a separator recovers the field
and the separator kind. -/
theorem parseField_sep (f rest : List Char) :
    parseField (escapeCh f ++ ',' :: rest) = some (⟨f⟩, false, rest) ∧
    parseField (escapeCh f ++ Char.ofNat 10 :: rest) = some (⟨f⟩, true, rest) := by
  by_cases hq : needsQuote f = true
  · rw [escapeCh, if_pos hq]
    constructor
    · rw [List.cons_append, List.append_assoc, List.singleton_append]
      simp only [parseField, if_pos rfl]
      simpa using (parseQuoted_esc f [] rest).1
    · rw [List.cons_append, List.append_assoc, List.singleton_append]
      simp only [parseField, if_pos rfl]
      simpa using (parseQuoted_esc f [] rest).2
  · have hq2 : needsQuote f = false := by simpa using hq
    have hfacts := needsQuote_false_facts f hq2
    rw [escapeCh, if_neg hq]
    have hraw := parseUnquoted_raw f
      (fun x hx => ⟨(hfacts x hx).1, (hfacts x hx).2.2.1⟩) [] rest
    cases f with
    | nil =>
      constructor
      · show parseField (',' :: rest) = _
        simp only [parseField, if_neg (by decide : ¬(',' = '"'))]
        simpa using hraw.1
      · show parseField (Char.ofNat 10 :: rest) = _
        simp only [parseField, if_neg (by decide : ¬(Char.ofNat 10 = '"'))]
        simpa using hraw.2
    | cons c f2 =>
      have hcq : c ≠ '"' := (hfacts c (List.mem_cons_self _ _)).2.1
      constructor
      · rw [List.cons_append]
        simp only [parseField, if_neg hcq]
        rw [← List.cons_append]
        simpa using hraw.1
      · rw [List.cons_append]
        simp only [parseField, if_neg hcq]
        rw [← List.cons_append]
        simpa using hraw.2

/-- A rendered record is never empty. -/
theorem renderFields_ne_nil (fs : List (List Char)) : renderFields fs ≠ [] := by
  rcases fs with _ | ⟨f, _ | ⟨f2, rest⟩⟩ <;> simp [renderFields]

/-- A rendered record is at least as long as its field count. -/
theorem renderFields_length (fs : List (List Char)) :
    fs.length ≤ (renderFields fs).length := by
  induction fs with
  | nil => simp [renderFields]
  | cons f fs ih =>
    rcases fs with _ | ⟨f2, rest⟩
    · simp [renderFields]
    · show (f2 :: rest).length + 1 ≤ (f ++ ',' :: renderFields (f2 :: rest)).length
      simp only [List.length_append, List.length_cons] at ih ⊢
      omega

/-- Parsing a rendered record recovers its fields and leaves exactly the
trailing input. -/
theorem parseFieldsAux_render :
    ∀ (fs : List (List Char)), fs ≠ [] → ∀ fuel, fs.length ≤ fuel → ∀ rest,
    parseFieldsAux fuel (renderFields (fs.map escapeCh) ++ rest)
      = some (fs.map (fun f => (⟨f⟩ : String)), rest) := by
  intro fs
  induction fs with
  | nil => intro h; exact absurd rfl h
  | cons f fs ih =>
    intro _ fuel hfuel rest
    cases fuel with
    | zero => simp at hfuel
    | succ fuel =>
      rcases fs with _ | ⟨f2, fs2⟩
      · simp only [List.map_cons, List.map_nil]
        rw [show renderFields [escapeCh f] = escapeCh f ++ [Char.ofNat 10] from rfl,
          List.append_assoc, List.singleton_append]
        simp only [parseFieldsAux]
        rw [(parseField_sep f rest).2]
      · simp only [List.map_cons]
        rw [show renderFields (escapeCh f :: escapeCh f2 :: fs2.map escapeCh)
              = escapeCh f ++ ',' :: renderFields (escapeCh f2 :: fs2.map escapeCh) from rfl,
          List.append_assoc, List.cons_append]
        simp only [parseFieldsAux]
        rw [(parseField_sep f (renderFields (escapeCh f2 :: fs2.map escapeCh) ++ rest)).1]
        have htail := ih (by simp) fuel (by simp at hfuel ⊢; omega) rest
        simp only [List.map_cons] at htail
        simp only [htail]

/-- The rendered byte stream is at least as long as the record count. -/
theorem renderRecords_length (rows : List (List (List Char))) :
    rows.length ≤ (renderRecords rows).length := by
  induction rows with
  | nil => simp [renderRecords]
  | cons r rows ih =>
    show rows.length + 1 ≤ (renderFields (r.map escapeCh) ++ renderRecords rows).length
    rw [List.length_append]
    have h1 : 1 ≤ (renderFields (r.map escapeCh)).length := by
      cases hrf : renderFields (r.map escapeCh) with
      | nil => exact absurd hrf (renderFields_ne_nil _)
      | cons a l => simp
    omega

/-- Parsing the rendered records recovers every record. -/
theorem parseRecordsAux_render :
    ∀ (rows : List (List (List Char))), (∀ r ∈ rows, r ≠ []) → ∀ fuel, rows.length ≤ fuel →
    parseRecordsAux fuel (renderRecords rows)
      = some (rows.map (fun r => r.map (fun f => (⟨f⟩ : String)))) := by
  intro rows
  induction rows with
  | nil =>
    intro _ fuel _
    show parseRecordsAux fuel [] = some []
    cases fuel <;> rfl
  | cons r rows ih =>
    intro hr fuel hfuel
    cases fuel with
    | zero => simp at hfuel
    | succ fuel =>
      have hrr : renderRecords (r :: rows)
          = renderFields (r.map escapeCh) ++ renderRecords rows := rfl
      cases hrf : renderFields (r.map escapeCh) with
      | nil => exact absurd hrf (renderFields_ne_nil _)
      | cons a l =>
        rw [hrr, hrf, List.cons_append]
        simp only [parseRecordsAux]
        rw [← List.cons_append, ← hrf]
        have hlen : r.length ≤ (renderFields (r.map escapeCh) ++ renderRecords rows).length := by
          have h1 := renderFields_length (r.map escapeCh)
          rw [List.length_append]
          simp only [List.length_map] at h1
          omega
        rw [parseFieldsAux_render r (hr r (List.mem_cons_self _ _)) _ hlen (renderRecords rows)]
        simp only [ih (fun x hx => hr x (List.mem_cons_of_mem _ hx)) fuel
          (by simp at hfuel ⊢; omega)]
        rfl

/-- A literal `String.mk` of a string data list is the string itself. -/
theorem mk_data (s : String) : (⟨s.data⟩ : String) = s := rfl

/-- Decoding the parsed cells of a row gives the row back. -/
theorem decodeRow_rowFields (r : DisplayRow) :
    decodeRow ((rowFields r).map (fun f => (⟨f⟩ : String))) = some r := by
  simp only [rowFields, List.map_cons, List.map_nil, decodeRow, data_mk,
    ratParse_ratChars, valParse_valChars, mk_data]

/-- Decoding all parsed rows gives the table back. -/
theorem decodeRows_map (t : List DisplayRow) :
    decodeRows (t.map (fun r => (rowFields r).map (fun f => (⟨f⟩ : String)))) = some t := by
  induction t with
  | nil => rfl
  | cons r t ih =>
    simp only [List.map_cons, decodeRows, decodeRow_rowFields, ih]

/-- C8: the export round-trip.  Parsing the delimited output of
`to_csv(index=False)` reproduces the header (same column set, same
order) and exactly the same rows: `parseTable (toDelimited t) = some t`
for every table of the export schema. -/
theorem csv_roundtrip (t : List DisplayRow) : parseTable (toDelimited t) = some t := by
  have hrows : ∀ r ∈ (headerFields :: t.map rowFields), r ≠ [] := by
    intro r hr
    rcases List.mem_cons.mp hr with rfl | hm
    · simp [headerFields]
    · obtain ⟨x, _, rfl⟩ := List.mem_map.mp hm
      simp [rowFields]
  have hlen : (headerFields :: t.map rowFields).length ≤
      (renderRecords (headerFields :: t.map rowFields)).length + 1 := by
    have := renderRecords_length (headerFields :: t.map rowFields)
    omega
  unfold parseTable toDelimited
  rw [data_mk, parseRecordsAux_render _ hrows _ hlen]
  simp only [List.map_cons]
  rw [if_true, List.map_map]
  exact decodeRows_map t

end Transport
